import Mathlib

/-!
Verification of the prompt-construction and context-selection logic of the
"openai-release-notes-action" GitHub action (`src/index.js`).

The script is a linear orchestration: parse inputs, check the trigger event,
fetch the pull-request commits, build a context string (either from per-commit
data with associated PRs, or from platform-generated notes), build a fixed
system prompt, call the completion service, and create a release with the
returned text.

The embedding below models the script as a pure function `run` over an
environment `Env` that records the outcome of every external API call the
script awaits.  String building (including `JSON.stringify(_, null, 2)` on the
fixed data shapes the script serializes) is reproduced character-for-character
as functions on `List Char` / `String`.  An explicit `Effect` trace records
which external calls the run performs and with which arguments.
-/

namespace ReleaseNotesAction

/-- Raw pull-request reference as returned by
`listPullRequestsAssociatedWithCommit` (fields `number` and `html_url`). -/
structure PRData where
  number : Nat
  html_url : String
  deriving DecidableEq

/-- Display form of a PR reference produced by `getPRsFromCommit`:
`\x7b label: `#${p.number}`, url: p.html_url \x7d`. -/
structure PRRef where
  label : String
  url : String
  deriving DecidableEq

/-- Nested `commit` field of a commit object: only `message` is read. -/
structure CommitInfo where
  message : String
  deriving DecidableEq

/-- The `author` field of a commit object: `name` and `html_url` are read. -/
structure CommitAuthor where
  name : String
  html_url : String
  deriving DecidableEq

/-- A commit object from `pulls.listCommits`: the script reads `sha`,
`commit.message`, `author.name`, `author.html_url`. -/
structure CommitObj where
  sha : String
  commit : CommitInfo
  author : CommitAuthor
  deriving DecidableEq

/-- One element of the `commitData` array the script serializes into the
user prompt: `\x7b message, author, authorUrl, prs \x7d`. -/
structure CommitRecord where
  message : String
  author : String
  authorUrl : String
  prs : List PRRef
  deriving DecidableEq

/-- Response of `repos.getLatestRelease`: only `data.tag_name` is read. -/
structure LatestRelease where
  tag_name : String
  deriving DecidableEq

/-- One chat message sent to the completion service. -/
structure ChatMessage where
  role : String
  content : String
  deriving DecidableEq

/-- The `message` of a completion choice: only `content` is read. -/
structure ChoiceMessage where
  content : String
  deriving DecidableEq

/-- One element of `completion.choices`. -/
structure Choice where
  message : ChoiceMessage
  deriving DecidableEq

/-- A completion object returned by `chat.completions.create`. -/
structure Completion where
  choices : List Choice
  deriving DecidableEq

/-- Arguments of `repos.createRelease`: `tag_name`, `name`, `body`. -/
structure ReleaseSubmission where
  tag_name : String
  name : String
  body : String
  deriving DecidableEq

/-- The action inputs after `parseInputs` (all raw strings from `getInput`,
except `model` which defaults to "gpt-4o" when empty). -/
structure Inputs where
  language : String
  model : String
  openaiApiKey : String
  token : String
  version : String
  useGithubGeneratedNotes : String
  useMentionCommitsPrs : String
  deriving DecidableEq

/-- Transcription of `parseInputs` in `src/index.js`: every input is the raw
`getInput` string; `model` is `getInput("model") || "gpt-4o"`, and the empty
string is the only falsy string in JavaScript. -/
def parseInputs (raw : String → String) : Inputs :=
  { language := raw "language"
    model := if raw "model" = "" then "gpt-4o" else raw "model"
    openaiApiKey := raw "openai-api-key"
    token := raw "token"
    version := raw "version"
    useGithubGeneratedNotes := raw "use-github-generated-notes"
    useMentionCommitsPrs := raw "use-mention-commits-prs" }

/-- JavaScript truthiness of a string value: every string is truthy except
the empty string. -/
def truthy (s : String) : Bool := s != ""

/-- Transcription of `getPRsFromCommit`: maps the raw PR list of a commit SHA
to display references with label `"#" ++ number` and the PR `html_url`. -/
def getPRsFromCommit (lookup : String → List PRData) (sha : String) : List PRRef :=
  (lookup sha).map (fun p => { label := "#" ++ Nat.repr p.number, url := p.html_url })

/-- Builds one element of the `commitData` array from a commit object, as in
the `commits.data.map` callback of `run`. -/
def mkCommitRecord (lookup : String → List PRData) (c : CommitObj) : CommitRecord :=
  { message := c.commit.message
    author := c.author.name
    authorUrl := c.author.html_url
    prs := getPRsFromCommit lookup c.sha }

/-- Hexadecimal digit character (lowercase), used by JSON `\uXXXX` escapes. -/
def hexChar (n : Nat) : Char :=
  if n < 10 then Char.ofNat (48 + n) else Char.ofNat (87 + n)

/-- JSON escaping of a single character, exactly as `JSON.stringify` escapes
string contents: quote, backslash, the named control escapes, and `\u00XX`
for the remaining control characters. -/
def escapeChar (c : Char) : List Char :=
  if c = '\"' then ['\\', '\"']
  else if c = '\\' then ['\\', '\\']
  else if c = '\n' then ['\\', 'n']
  else if c = '\t' then ['\\', 't']
  else if c = '\r' then ['\\', 'r']
  else if c = Char.ofNat 8 then ['\\', 'b']
  else if c = Char.ofNat 12 then ['\\', 'f']
  else if c.toNat < 32 then ['\\', 'u', '0', '0', hexChar (c.toNat / 16), hexChar (c.toNat % 16)]
  else [c]

/-- JSON escaping of a character sequence. -/
def jsonEscape (l : List Char) : List Char :=
  (l.map escapeChar).flatten

/-- A JSON string literal: quote, escaped contents, quote. -/
def quoteStr (s : String) : List Char :=
  '\"' :: jsonEscape s.data ++ ['\"']

/-- A JSON object field with a string value: `"key": "value"`. -/
def strField (key val : String) : List Char :=
  quoteStr key ++ ':' :: ' ' :: quoteStr val

/-- Indentation of `n` spaces, as produced by `JSON.stringify(_, null, 2)`. -/
def pad (n : Nat) : List Char := List.replicate n ' '

/-- Rendering of one PR reference object at nesting depth `d`, matching
`JSON.stringify(\x7b label, url \x7d, null, 2)` embedded at that depth. -/
def renderPR (d : Nat) (p : PRRef) : List Char :=
  ('{' :: '\n' :: pad (2 * (d + 1))) ++ strField "label" p.label ++
    ((',' :: '\n' :: pad (2 * (d + 1))) ++ strField "url" p.url ++
      ('\n' :: pad (2 * d) ++ ['}']))

/-- Rendering of the comma-and-newline separated items of a JSON array of PR
references, each item indented at depth `d`. -/
def renderPRItems (d : Nat) : List PRRef → List Char
  | [] => []
  | [p] => pad (2 * d) ++ renderPR d p
  | p :: rest => pad (2 * d) ++ renderPR d p ++ (',' :: '\n' :: renderPRItems d rest)

/-- Rendering of a JSON array of PR references at depth `d`: `[]` when empty,
otherwise the items at depth `d + 1` between brackets. -/
def renderPRs (d : Nat) : List PRRef → List Char
  | [] => ['[', ']']
  | p :: rest => '[' :: '\n' :: renderPRItems (d + 1) (p :: rest) ++
      ('\n' :: pad (2 * d) ++ [']'])

/-- Leading fields of a serialized commit record, up to and including the
`"prs": ` key, at depth `d`. -/
def commitFieldsFront (d : Nat) (c : CommitRecord) : List Char :=
  ('{' :: '\n' :: pad (2 * (d + 1))) ++ strField "message" c.message ++
    ((',' :: '\n' :: pad (2 * (d + 1))) ++ strField "author" c.author ++
      ((',' :: '\n' :: pad (2 * (d + 1))) ++ strField "authorUrl" c.authorUrl ++
        ((',' :: '\n' :: pad (2 * (d + 1))) ++ quoteStr "prs" ++ [':', ' '])))

/-- Rendering of one commit record object at depth `d`, matching
`JSON.stringify` of `\x7b message, author, authorUrl, prs \x7d`. -/
def renderCommit (d : Nat) (c : CommitRecord) : List Char :=
  commitFieldsFront d c ++ renderPRs (d + 1) c.prs ++ ('\n' :: pad (2 * d) ++ ['}'])

/-- Rendering of the separated items of the commit-record array at depth `d`. -/
def renderCommitItems (d : Nat) : List CommitRecord → List Char
  | [] => []
  | [c] => pad (2 * d) ++ renderCommit d c
  | c :: rest => pad (2 * d) ++ renderCommit d c ++ (',' :: '\n' :: renderCommitItems d rest)

/-- Rendering of the commit-record array at depth `d`: the exact output of
`JSON.stringify(commitData, null, 2)` when `d = 0`. -/
def renderCommits (d : Nat) : List CommitRecord → List Char
  | [] => ['[', ']']
  | c :: rest => '[' :: '\n' :: renderCommitItems (d + 1) (c :: rest) ++
      ('\n' :: pad (2 * d) ++ [']'])

/-- The discriminated context union of the spec: either the per-commit
records (commit path), or the optional platform-generated notes body
(`none` when note generation failed and `userPromptContext` stayed `""`). -/
inductive ReleaseContext where
  | commitCtx (commits : List CommitRecord)
  | notesCtx (rawNotes : Option String)
  deriving DecidableEq

/-- Prompt configuration derived from the inputs: the output language and the
truthiness of `use-mention-commits-prs`. -/
structure PromptConfig where
  targetLanguage : String
  mentionCommitsAndPRs : Bool
  deriving DecidableEq

/-- The instruction-line toggled by `useMentionCommitsPrs` in the system
prompt (the conditional expression at the start of `prompt`). -/
def mentionRule (mention : Bool) : String :=
  if mention then "\n - mention commits or PRs when possible and add a link in markdown format."
  else "\n - do not mention commits or PRs."

/-- Everything of the system prompt string before its final concatenated
piece, transcribed from the `prompt` expression in `run`. -/
def promptFront (mention : Bool) (language : String) : String :=
  "Your task is write release notes of a new version of the software following this rules:" ++
  mentionRule mention ++
  "\n - do not add a mention to the user who made the changes." ++
  "\n - notes must consist in useful information about the new features or bug fixes." ++
  "\n - must be clear and concise." ++
  "\n - group as features and fixes if possible." ++
  "\n - must be organized with features first and then bug fixes." ++
  "\n - must be written in the following language \x27" ++ language ++ "\x27." ++
  "\n - must be written in a friendly and professional tone." ++
  "\n - must be exactly what the information provided says, without add up." ++
  "\n - must be written user friendly." ++
  "\n - must be written in a markdown format." ++
  "\n - must have the following structure (do not add title, footer or any other content):" ++
  "\n   ```" ++
  "\n   ## Features" ++
  "\n   * This is a feature" ++
  "\n   ## Fixes"

/-- The full system prompt: the last concatenated operand in the source is
`"\n   * This is a fix"`; the following fence literal `("\n   ` ` ` ");` is a
standalone expression statement in the source and is never concatenated. -/
def buildSystemPrompt (mention : Bool) (language : String) : String :=
  promptFront mention language ++ "\n   * This is a fix"

/-- Header preceding the serialized commit data in `userPromptContext`. -/
def contextCommitsHeader : String :=
  "\nUse the following commits data to write the release notes (commit message, author, PRs):"

/-- Header preceding the serialized notes body in `userPromptContext`. -/
def contextNotesHeader : String :=
  "\nUse the following notes to write the release notes:\n"

/-- Rendering of the collected context into the `userPromptContext` string:
the commit path appends `JSON.stringify(commitData, null, 2)` to its header;
the notes path appends `JSON.stringify(notes.data.body, null, 2)` (a JSON
string literal) to its header, and stays `""` when generation failed. -/
def renderContext : ReleaseContext → String
  | .commitCtx rs => contextCommitsHeader ++ String.mk (renderCommits 0 rs)
  | .notesCtx (some body) => contextNotesHeader ++ String.mk (quoteStr body)
  | .notesCtx none => ""

/-- The messages array sent to `chat.completions.create`: a system message
with the rule prompt and a user message with the context string. -/
def promptMessages (ctx : ReleaseContext) (cfg : PromptConfig) : List ChatMessage :=
  [{ role := "system", content := buildSystemPrompt cfg.mentionCommitsAndPRs cfg.targetLanguage },
   { role := "user", content := renderContext ctx }]

/-- The full rendered prompt text: instruction plus embedded context. -/
def renderedPromptText (ctx : ReleaseContext) (cfg : PromptConfig) : String :=
  buildSystemPrompt cfg.mentionCommitsAndPRs cfg.targetLanguage ++ renderContext ctx

/-- Environment of a single run: the outcome of every external call the
script awaits, plus the invocation context it reads. -/
structure Env where
  eventName : String
  prCommits : List CommitObj
  prsOfCommit : String → List PRData
  latestRelease : Except String LatestRelease
  generateNotes : String → Option String → Except String String
  completion : Option Completion

/-- The previous tag passed to `generateReleaseNotes`:
`previousVersion?.data?.tag_name`, which is absent when `getLatestRelease`
threw and the inner catch only logged. -/
def previousTagOf : Except String LatestRelease → Option String
  | .ok r => some r.tag_name
  | .error _ => none

/-- Context Collector: on the generated-notes path the inner try/catch turns
any `generateReleaseNotes` failure into an empty contribution; on the commit
path every commit is mapped to its record with associated PR references. -/
def collectedContext (env : Env) (useGGN : Bool) (version : String) : ReleaseContext :=
  if useGGN then
    match env.generateNotes version (previousTagOf env.latestRelease) with
    | .ok body => .notesCtx (some body)
    | .error _ => .notesCtx none
  else
    .commitCtx (env.prCommits.map (mkCommitRecord env.prsOfCommit))

/-- External calls performed while collecting the context. -/
inductive Effect where
  | fetchCommits
  | prLookup (sha : String)
  | fetchLatestRelease
  | generateNotes (tagName : String) (previousTag : Option String)
  | callCompletion (messages : List ChatMessage) (model : String)
  | createRelease (sub : ReleaseSubmission)
  deriving DecidableEq

/-- The calls the Collector issues: the notes path looks up the latest
release and requests generated notes; the commit path looks up the PRs of
every fetched commit. -/
def collectEffects (env : Env) (useGGN : Bool) (version : String) : List Effect :=
  if useGGN then
    [.fetchLatestRelease, .generateNotes version (previousTagOf env.latestRelease)]
  else
    env.prCommits.map (fun c => .prLookup c.sha)

/-- Ways the run can fail. -/
inductive RunError where
  | wrongEvent
  | noCommits
  | caughtError (msg : String)
  deriving DecidableEq

/-- Outcome of a run: a fatal failure, or a created release. -/
inductive RunOutcome where
  | fatal (e : RunError)
  | released (sub : ReleaseSubmission)
  deriving DecidableEq

/-- Message of the TypeError raised when `completion.choices[0]` is absent
and `.message` is read from `undefined`; it is caught by the top-level
handler. -/
def typeErrorMsg : String :=
  "Cannot read properties of undefined (reading \x27message\x27)"

/-- Transcription of `run` in `src/index.js` over an environment of external
call outcomes, paired with the trace of external calls performed.  The event
check and the empty-commit check happen before the try block and before any
branching on `useGithubGeneratedNotes`; inside the try, the context is
collected, the prompt messages are built, the completion service is called,
and a release is created from `completion.choices[0].message.content`
whenever the completion value is truthy and has a first choice. -/
def run (env : Env) (raw : String → String) : RunOutcome × List Effect :=
  let I := parseInputs raw
  if env.eventName = "pull_request" then
    if env.prCommits.length = 0 then
      (.fatal .noCommits, [.fetchCommits])
    else
      let ggn := truthy I.useGithubGeneratedNotes
      let ctx := collectedContext env ggn I.version
      let cfg : PromptConfig := { targetLanguage := I.language, mentionCommitsAndPRs := truthy I.useMentionCommitsPrs }
      let msgs := promptMessages ctx cfg
      let effs := Effect.fetchCommits :: (collectEffects env ggn I.version ++ [Effect.callCompletion msgs I.model])
      match env.completion with
      | none => (.fatal (.caughtError "Failed to generate release notes"), effs)
      | some comp =>
        match comp.choices with
        | [] => (.fatal (.caughtError typeErrorMsg), effs)
        | choice :: _ =>
          let sub : ReleaseSubmission :=
            { tag_name := I.version, name := I.version, body := choice.message.content }
          (.released sub, effs ++ [.createRelease sub])
  else
    (.fatal .wrongEvent, [])

/-- First completion call recorded in a trace, with its messages. -/
def sentMessages : List Effect → Option (List ChatMessage)
  | [] => none
  | .callCompletion msgs _ :: _ => some msgs
  | _ :: rest => sentMessages rest

/-- Prompt configuration as derived from the raw inputs. -/
def cfgOf (raw : String → String) : PromptConfig :=
  { targetLanguage := raw "language", mentionCommitsAndPRs := truthy (raw "use-mention-commits-prs") }

/-- Sample inputs with only `version` set. -/
def rawBase : String → String := fun name => if name = "version" then "v1" else ""

/-- Sample inputs selecting the generated-notes path. -/
def rawGGN : String → String := fun name =>
  if name = "use-github-generated-notes" then "true" else
  if name = "version" then "v1" else ""

/-- Sample inputs where both optional flags carry the string "false". -/
def rawFlagsFalse : String → String := fun name =>
  if name = "use-github-generated-notes" then "false" else
  if name = "use-mention-commits-prs" then "false" else
  if name = "version" then "v1" else ""

/-- A sample commit. -/
def commitA : CommitObj :=
  { sha := "sha1", commit := { message := "fix: null pointer" },
    author := { name := "alice", html_url := "http://users/alice" } }

/-- A sample environment: pull-request event, one commit with one associated
PR, failing latest-release lookup and notes generation, and a completion
with non-empty text. -/
def envBase : Env :=
  { eventName := "pull_request"
    prCommits := [commitA]
    prsOfCommit := fun _ => [{ number := 1, html_url := "http://prs/1" }]
    latestRelease := .error "not found"
    generateNotes := fun _ _ => .error "boom"
    completion := some { choices := [{ message := { content := "notes body" } }] } }

/-- Sample environment with an empty commit list. -/
def envEmptyCommits : Env := { envBase with prCommits := [] }

/-- Sample environment where the completion value is absent. -/
def envNoCompletion : Env := { envBase with completion := none }

/-- Sample environment where the completion text is the empty string. -/
def envEmptyContent : Env :=
  { envBase with completion := some { choices := [{ message := { content := "" } }] } }

/-- Sample environment triggered by a non-pull-request event. -/
def envWrongEvent : Env := { envBase with eventName := "push" }

/-- Sample environment where notes generation succeeds. -/
def envNotesOk : Env := { envBase with generateNotes := fun _ _ => .ok "generated" }

end ReleaseNotesAction

namespace ReleaseNotesAction

/-! Helper lemmas. -/

/-- Truthiness of a string is exactly non-emptiness. -/
theorem truthy_eq_true_iff (s : String) : truthy s = true ↔ s ≠ "" := by
  simp [truthy]

/-- A collector trace never contains a release-creation call. -/
theorem createRelease_not_mem_collectEffects (env : Env) (b : Bool) (v : String)
    (sub : ReleaseSubmission) : Effect.createRelease sub ∉ collectEffects env b v := by
  cases b <;> simp [collectEffects]

/-- The latest-release lookup appears in the collector trace exactly on the
generated-notes path. -/
theorem fetchLatest_mem_collectEffects (env : Env) (b : Bool) (v : String) :
    Effect.fetchLatestRelease ∈ collectEffects env b v ↔ b = true := by
  cases b <;> simp [collectEffects]

/-- PR lookups at the front of a trace do not affect the first completion
call found in it. -/
theorem sentMessages_append_prLookups (cs : List CommitObj) (rest : List Effect) :
    sentMessages (cs.map (fun c => Effect.prLookup c.sha) ++ rest) = sentMessages rest := by
  induction cs with
  | nil => rfl
  | cons c cs ih => simpa [sentMessages] using ih

/-! Claim theorems. -/

/-- Claim C7 (confirmed): for every invocation whose event type is not a
pull-request event, the run fails with the fatal configuration error and its
trace of external calls is empty, so no commit fetch, completion call, or
release write is performed. -/
theorem wrongEvent_fatal_before_any_call (env : Env) (raw : String → String)
    (h : env.eventName ≠ "pull_request") :
    run env raw = (RunOutcome.fatal RunError.wrongEvent, []) := by
  simp [run, h]

/-- Claim C7 witness at a concrete push-triggered environment. -/
theorem wrongEvent_fatal_before_any_call_witness :
    envWrongEvent.eventName ≠ "pull_request" ∧
    run envWrongEvent rawBase = (RunOutcome.fatal RunError.wrongEvent, []) :=
  ⟨by decide, wrongEvent_fatal_before_any_call envWrongEvent rawBase (by decide)⟩

/-- Claim C5 (confirmed): the Prompt Builder is a pure deterministic function
of the release context and prompt configuration: two invocations with equal
arguments yield identical messages and identical rendered prompt text, with
no dependence on any other state (the embedding gives it no other input). -/
theorem promptBuilder_deterministic (ctx₁ ctx₂ : ReleaseContext) (cfg₁ cfg₂ : PromptConfig)
    (hctx : ctx₁ = ctx₂) (hcfg : cfg₁ = cfg₂) :
    promptMessages ctx₁ cfg₁ = promptMessages ctx₂ cfg₂ ∧
    renderedPromptText ctx₁ cfg₁ = renderedPromptText ctx₂ cfg₂ := by
  subst hctx; subst hcfg; exact ⟨rfl, rfl⟩

/-- Claim C5 witness at a concrete context and configuration. -/
theorem promptBuilder_deterministic_witness :
    (ReleaseContext.notesCtx (some "n") = ReleaseContext.notesCtx (some "n")) ∧
    (PromptConfig.mk "en" true = PromptConfig.mk "en" true) ∧
    (promptMessages (ReleaseContext.notesCtx (some "n")) (PromptConfig.mk "en" true) =
        promptMessages (ReleaseContext.notesCtx (some "n")) (PromptConfig.mk "en" true) ∧
      renderedPromptText (ReleaseContext.notesCtx (some "n")) (PromptConfig.mk "en" true) =
        renderedPromptText (ReleaseContext.notesCtx (some "n")) (PromptConfig.mk "en" true)) :=
  ⟨rfl, rfl, promptBuilder_deterministic _ _ _ _ rfl rfl⟩

/-- Claim C9 (confirmed): every successful run creates its release with both
the tag name and the display name equal to the raw `version` input,
unchanged, so the two always coincide. -/
theorem released_tagName_eq_version (env : Env) (raw : String → String)
    (sub : ReleaseSubmission) (h : (run env raw).1 = RunOutcome.released sub) :
    sub.tag_name = raw "version" ∧ sub.name = raw "version" ∧ sub.tag_name = sub.name := by
  by_cases h1 : env.eventName = "pull_request"
  · by_cases h2 : env.prCommits.length = 0
    · simp [run, h1, h2] at h
    · rcases hc : env.completion with _ | comp
      · simp [run, h1, h2, hc] at h
      · rcases hch : comp.choices with _ | ⟨choice, rest⟩
        · simp [run, h1, h2, hc, hch] at h
        · simp [run, h1, h2, hc, hch] at h
          obtain rfl := h.symm
          exact ⟨rfl, rfl, rfl⟩
  · simp [run, h1] at h

/-- Claim C9 witness at a concrete successful run. -/
theorem released_tagName_eq_version_witness :
    (run envBase rawBase).1 = RunOutcome.released ⟨"v1", "v1", "notes body"⟩ ∧
    ((⟨"v1", "v1", "notes body"⟩ : ReleaseSubmission).tag_name = rawBase "version" ∧
      (⟨"v1", "v1", "notes body"⟩ : ReleaseSubmission).name = rawBase "version" ∧
      (⟨"v1", "v1", "notes body"⟩ : ReleaseSubmission).tag_name =
        (⟨"v1", "v1", "notes body"⟩ : ReleaseSubmission).name) :=
  ⟨by decide, released_tagName_eq_version envBase rawBase _ (by decide)⟩

/-- Claim C1 counterexample: with the generated-notes variant selected
(`use-github-generated-notes` is the non-empty string "true") and an empty
fetched commit list, the run still fails with the fatal no-commits error,
contradicting the claim that this error is never raised on the
GeneratedNotesContext path. -/
theorem noCommits_error_on_notes_path :
    truthy (rawGGN "use-github-generated-notes") = true ∧
    envEmptyCommits.prCommits = [] ∧
    (run envEmptyCommits rawGGN).1 = RunOutcome.fatal RunError.noCommits := by
  decide

/-- Claim C1 (corrected): given a pull-request event, the run fails with the
fatal no-commits error exactly when the fetched commit list is empty,
regardless of which context variant is selected — the emptiness check runs
before the branch on `useGithubGeneratedNotes`. -/
theorem noCommits_error_iff_empty (env : Env) (raw : String → String)
    (h : env.eventName = "pull_request") :
    (run env raw).1 = RunOutcome.fatal RunError.noCommits ↔ env.prCommits = [] := by
  by_cases h2 : env.prCommits.length = 0
  · simp [run, h, h2, List.length_eq_zero.mp h2]
  · have h2' : ¬ env.prCommits = [] := fun he => h2 (by simp [he])
    rcases hc : env.completion with _ | comp
    · simp [run, h, h2, hc, h2']
    · rcases hch : comp.choices with _ | ⟨choice, rest⟩
      · simp [run, h, h2, hc, hch, h2']
      · simp [run, h, h2, hc, hch, h2']

/-- Claim C1 witness at a concrete environment with an empty commit list. -/
theorem noCommits_error_iff_empty_witness :
    envEmptyCommits.eventName = "pull_request" ∧
    ((run envEmptyCommits rawBase).1 = RunOutcome.fatal RunError.noCommits ↔
      envEmptyCommits.prCommits = []) :=
  ⟨by decide, noCommits_error_iff_empty envEmptyCommits rawBase (by decide)⟩

/-- Claim C2 counterexample: when the completion object is present but its
first choice has empty message content, the run does not abort — it creates
a release whose body is the empty string, contradicting the claim that
`createRelease` is never called when the completion service returns no
usable text. -/
theorem emptyCompletion_still_creates_release :
    (run envEmptyContent rawBase).1 = RunOutcome.released ⟨"v1", "v1", ""⟩ ∧
    Effect.createRelease ⟨"v1", "v1", ""⟩ ∈ (run envEmptyContent rawBase).2 := by
  decide

/-- Claim C2 (corrected): the run aborts with a fatal error only when the
completion value itself is absent (falsy), in which case `createRelease` is
never called; whenever a completion object with a first choice is present,
`createRelease` is called with the message content of that choice as the release
body — even when that content is the empty string. -/
theorem release_iff_completion_present (env : Env) (raw : String → String)
    (h1 : env.eventName = "pull_request") (h2 : env.prCommits ≠ []) :
    (env.completion = none →
      (run env raw).1 = RunOutcome.fatal (RunError.caughtError "Failed to generate release notes") ∧
      ∀ sub, Effect.createRelease sub ∉ (run env raw).2) ∧
    (∀ comp choice rest, env.completion = some comp → comp.choices = choice :: rest →
      (run env raw).1 = RunOutcome.released ⟨raw "version", raw "version", choice.message.content⟩ ∧
      Effect.createRelease ⟨raw "version", raw "version", choice.message.content⟩ ∈
        (run env raw).2) := by
  have h2' : ¬ env.prCommits.length = 0 := by
    simpa [List.length_eq_zero] using h2
  constructor
  · intro hc
    constructor
    · simp [run, h1, h2', hc]
    · intro sub
      simp [run, h1, h2', hc, List.mem_cons, List.mem_append,
        createRelease_not_mem_collectEffects env _ _ sub]
  · intro comp choice rest hc hch
    constructor
    · simp [run, h1, h2', hc, hch, parseInputs]
    · simp [run, h1, h2', hc, hch, parseInputs]

/-- Claim C2 witness at a concrete environment whose completion is absent. -/
theorem release_iff_completion_present_witness :
    envNoCompletion.eventName = "pull_request" ∧ envNoCompletion.prCommits ≠ [] ∧
    ((envNoCompletion.completion = none →
      (run envNoCompletion rawBase).1 =
        RunOutcome.fatal (RunError.caughtError "Failed to generate release notes") ∧
      ∀ sub, Effect.createRelease sub ∉ (run envNoCompletion rawBase).2) ∧
    (∀ comp choice rest, envNoCompletion.completion = some comp → comp.choices = choice :: rest →
      (run envNoCompletion rawBase).1 =
        RunOutcome.released ⟨rawBase "version", rawBase "version", choice.message.content⟩ ∧
      Effect.createRelease ⟨rawBase "version", rawBase "version", choice.message.content⟩ ∈
        (run envNoCompletion rawBase).2)) :=
  ⟨by decide, by decide,
    release_iff_completion_present envNoCompletion rawBase (by decide) (by decide)⟩

/-- Claim C4 (confirmed): for every non-empty fetched commit sequence, the
collected commit context consists of exactly one record per commit, in the
order returned by the commits API, whose `message` and `author` fields are
exactly the message and author name of each commit — so the rendered context
embeds the message and author of every commit exactly once each, in input
order. -/
theorem commitContext_preserves_messages_in_order (env : Env) (version : String)
    (h : env.prCommits ≠ []) :
    ∃ rs, collectedContext env false version = ReleaseContext.commitCtx rs ∧
      rs.map (fun r => r.message) = env.prCommits.map (fun c => c.commit.message) ∧
      rs.map (fun r => r.author) = env.prCommits.map (fun c => c.author.name) ∧
      rs.length = env.prCommits.length := by
  refine ⟨env.prCommits.map (mkCommitRecord env.prsOfCommit), rfl, ?_, ?_, ?_⟩ <;>
    simp [List.map_map, mkCommitRecord, Function.comp]

/-- Claim C4 witness at a concrete one-commit environment. -/
theorem commitContext_preserves_messages_in_order_witness :
    envBase.prCommits ≠ [] ∧
    (∃ rs, collectedContext envBase false "v1" = ReleaseContext.commitCtx rs ∧
      rs.map (fun r => r.message) = envBase.prCommits.map (fun c => c.commit.message) ∧
      rs.map (fun r => r.author) = envBase.prCommits.map (fun c => c.author.name) ∧
      rs.length = envBase.prCommits.length) :=
  ⟨by decide, commitContext_preserves_messages_in_order envBase "v1" (by decide)⟩

/-- Claim C8 (confirmed): the two optional flags are raw strings tested only
for truthiness: the latest-release lookup (the generated-notes variant) is
performed exactly when `use-github-generated-notes` is a non-empty string,
the system prompt sent to the completion service is built from the
truthiness of `use-mention-commits-prs`, and the string "false" is truthy
while only the empty string is falsy. -/
theorem flags_tested_for_truthiness (env : Env) (raw : String → String)
    (h1 : env.eventName = "pull_request") (h2 : env.prCommits ≠ []) :
    ((Effect.fetchLatestRelease ∈ (run env raw).2) ↔ raw "use-github-generated-notes" ≠ "") ∧
    (∃ userMsg, sentMessages (run env raw).2 =
      some [{ role := "system",
              content := buildSystemPrompt (truthy (raw "use-mention-commits-prs"))
                (raw "language") },
            userMsg]) ∧
    truthy "false" = true ∧ truthy "" = false := by
  have h2' : ¬ env.prCommits.length = 0 := by
    simpa [List.length_eq_zero] using h2
  refine ⟨?_, ?_, by decide, by decide⟩
  · rw [← truthy_eq_true_iff]
    by_cases hb : truthy (raw "use-github-generated-notes") = true <;>
      rcases hc : env.completion with _ | comp
    · simp [run, h1, h2', hc, parseInputs, hb, collectEffects]
    · rcases hch : comp.choices with _ | ⟨choice, rest⟩ <;>
        simp [run, h1, h2', hc, hch, parseInputs, hb, collectEffects]
    · simp only [Bool.not_eq_true] at hb
      simp [run, h1, h2', hc, parseInputs, hb, collectEffects]
    · simp only [Bool.not_eq_true] at hb
      rcases hch : comp.choices with _ | ⟨choice, rest⟩ <;>
        simp [run, h1, h2', hc, hch, parseInputs, hb, collectEffects]
  · have key : sentMessages (run env raw).2 =
        some (promptMessages
          (collectedContext env (truthy (raw "use-github-generated-notes")) (raw "version"))
          (cfgOf raw)) := by
      by_cases hb : truthy (raw "use-github-generated-notes") = true <;>
        rcases hc : env.completion with _ | comp
      · simp [run, h1, h2', hc, parseInputs, hb, collectEffects, sentMessages, cfgOf]
      · rcases hch : comp.choices with _ | ⟨choice, rest⟩ <;>
          simp [run, h1, h2', hc, hch, parseInputs, hb, collectEffects, sentMessages, cfgOf]
      · simp only [Bool.not_eq_true] at hb
        simp [run, h1, h2', hc, parseInputs, hb, collectEffects, cfgOf,
          sentMessages, sentMessages_append_prLookups]
      · simp only [Bool.not_eq_true] at hb
        rcases hch : comp.choices with _ | ⟨choice, rest⟩ <;>
          simp [run, h1, h2', hc, hch, parseInputs, hb, collectEffects, cfgOf,
            sentMessages, sentMessages_append_prLookups, List.append_assoc]
    exact ⟨{ role := "user",
             content := renderContext
               (collectedContext env (truthy (raw "use-github-generated-notes"))
                 (raw "version")) },
      by rw [key]; rfl⟩

/-- Claim C8 witness at a concrete environment whose flags both carry the
string "false", which enables both behaviors. -/
theorem flags_tested_for_truthiness_witness :
    envBase.eventName = "pull_request" ∧ envBase.prCommits ≠ [] ∧
    (((Effect.fetchLatestRelease ∈ (run envBase rawFlagsFalse).2) ↔
        rawFlagsFalse "use-github-generated-notes" ≠ "") ∧
      (∃ userMsg, sentMessages (run envBase rawFlagsFalse).2 =
        some [{ role := "system",
                content := buildSystemPrompt
                  (truthy (rawFlagsFalse "use-mention-commits-prs"))
                  (rawFlagsFalse "language") },
              userMsg]) ∧
      truthy "false" = true ∧ truthy "" = false) :=
  ⟨by decide, by decide,
    flags_tested_for_truthiness envBase rawFlagsFalse (by decide) (by decide)⟩

/-- Claim C6 (confirmed): on the generated-notes path the run always reaches
the completion call; when notes generation fails the context degrades to the
empty string; and when the latest-release lookup fails the notes request is
made with no previous tag (absence treated as "no previous release"), not
aborted. -/
theorem notesPath_soft_fails (env : Env) (raw : String → String)
    (h1 : env.eventName = "pull_request") (h2 : env.prCommits ≠ [])
    (h3 : truthy (raw "use-github-generated-notes") = true) :
    (Effect.callCompletion
        (promptMessages (collectedContext env true (raw "version")) (cfgOf raw))
        ((parseInputs raw).model) ∈ (run env raw).2) ∧
    (∀ e, env.generateNotes (raw "version") (previousTagOf env.latestRelease) =
        Except.error e →
      renderContext (collectedContext env true (raw "version")) = "") ∧
    (∀ e, env.latestRelease = Except.error e →
      Effect.generateNotes (raw "version") none ∈ (run env raw).2) := by
  have h2' : ¬ env.prCommits.length = 0 := by
    simpa [List.length_eq_zero] using h2
  refine ⟨?_, ?_, ?_⟩
  · rcases hc : env.completion with _ | comp
    · simp [run, h1, h2', hc, h3, parseInputs, collectEffects, cfgOf]
    · rcases hch : comp.choices with _ | ⟨choice, rest⟩ <;>
        simp [run, h1, h2', hc, hch, h3, parseInputs, collectEffects, cfgOf]
  · intro e he
    simp [collectedContext, he, renderContext]
  · intro e he
    rcases hc : env.completion with _ | comp
    · simp [run, h1, h2', hc, h3, parseInputs, collectEffects, previousTagOf, he]
    · rcases hch : comp.choices with _ | ⟨choice, rest⟩ <;>
        simp [run, h1, h2', hc, hch, h3, parseInputs, collectEffects, previousTagOf, he]

/-- Claim C6 witness at a concrete environment where both the latest-release
lookup and notes generation fail. -/
theorem notesPath_soft_fails_witness :
    envBase.eventName = "pull_request" ∧ envBase.prCommits ≠ [] ∧
    truthy (rawGGN "use-github-generated-notes") = true ∧
    ((Effect.callCompletion
        (promptMessages (collectedContext envBase true (rawGGN "version")) (cfgOf rawGGN))
        ((parseInputs rawGGN).model) ∈ (run envBase rawGGN).2) ∧
    (∀ e, envBase.generateNotes (rawGGN "version") (previousTagOf envBase.latestRelease) =
        Except.error e →
      renderContext (collectedContext envBase true (rawGGN "version")) = "") ∧
    (∀ e, envBase.latestRelease = Except.error e →
      Effect.generateNotes (rawGGN "version") none ∈ (run envBase rawGGN).2)) :=
  ⟨by decide, by decide, by decide,
    notesPath_soft_fails envBase rawGGN (by decide) (by decide) (by decide)⟩

/-- Claim C10 (confirmed): for every flag value and language, the rendered
system prompt ends with the line `   * This is a fix` and does not end with
a markdown code fence — the closing-fence literal of the source is a standalone
expression statement that is never concatenated into the prompt. -/
theorem systemPrompt_ends_without_fence (m : Bool) (l : String) :
    "\n   * This is a fix".data <:+ (buildSystemPrompt m l).data ∧
    ¬ ("```".data <:+ (buildSystemPrompt m l).data) := by
  have hd : (buildSystemPrompt m l).data =
      (promptFront m l).data ++ "\n   * This is a fix".data := rfl
  constructor
  · rw [hd]
    exact List.suffix_append _ _
  · rintro ⟨t, ht⟩
    have h1 : (buildSystemPrompt m l).data.getLast? = some '`' := by
      rw [← ht, List.getLast?_append]
      have he : ("```".data : List Char).getLast? = some '`' := by decide
      rw [he]
      rfl
    have h2 : (buildSystemPrompt m l).data.getLast? = some 'x' := by
      rw [hd, List.getLast?_append]
      have he : ("\n   * This is a fix".data : List Char).getLast? = some 'x' := by decide
      rw [he]
      rfl
    rw [h1] at h2
    exact absurd h2 (by decide)

/-! Infrastructure for Claim C3: PR-reference labels survive JSON escaping
and appear verbatim inside the rendered commit context. -/

/-- An infix of a list is an infix of any extension on both sides. -/
theorem within_extend {α : Type} {l m : List α} (s t : List α) (h : l <:+: m) :
    l <:+: s ++ m ++ t :=
  h.trans (List.infix_append s m t)

/-- An infix of a list is an infix of any left extension. -/
theorem within_append_left {α : Type} {l m : List α} (s : List α) (h : l <:+: m) :
    l <:+: s ++ m := by
  simpa using h.trans (List.infix_append s m [])

/-- Decimal digit characters produced by `Nat.digitChar` below base 10. -/
theorem digitChar_digit : ∀ n, n < 10 →
    48 ≤ (Nat.digitChar n).toNat ∧ (Nat.digitChar n).toNat ≤ 57 := by
  decide

/-- All characters accumulated by `Nat.toDigitsCore` at base 10 are decimal
digits, given the accumulator holds only digits. -/
theorem toDigitsCore_digits (fuel : Nat) : ∀ (n : Nat) (ds : List Char),
    (∀ c ∈ ds, 48 ≤ c.toNat ∧ c.toNat ≤ 57) →
    ∀ c ∈ Nat.toDigitsCore 10 fuel n ds, 48 ≤ c.toNat ∧ c.toNat ≤ 57 := by
  induction fuel with
  | zero =>
    intro n ds hds c hc
    simpa [Nat.toDigitsCore] using hds c hc
  | succ fuel ih =>
    intro n ds hds c hc
    have hd : 48 ≤ (Nat.digitChar (n % 10)).toNat ∧ (Nat.digitChar (n % 10)).toNat ≤ 57 :=
      digitChar_digit _ (Nat.mod_lt _ (by norm_num))
    have hds' : ∀ c ∈ Nat.digitChar (n % 10) :: ds, 48 ≤ c.toNat ∧ c.toNat ≤ 57 := by
      intro c hc
      rcases List.mem_cons.mp hc with rfl | hmem
      · exact hd
      · exact hds c hmem
    simp only [Nat.toDigitsCore] at hc
    split at hc
    · exact hds' c hc
    · exact ih _ _ hds' c hc

/-- Every character of `Nat.repr n` is a decimal digit. -/
theorem repr_digits (n : Nat) : ∀ c ∈ (Nat.repr n).data, 48 ≤ c.toNat ∧ c.toNat ≤ 57 := by
  intro c hc
  have hdata : (Nat.repr n).data = Nat.toDigitsCore 10 (n + 1) n [] := rfl
  rw [hdata] at hc
  exact toDigitsCore_digits (n + 1) n [] (by simp) c hc

/-- Decimal digit characters are unaffected by JSON escaping. -/
theorem escapeChar_eq_self_of_digit (c : Char) (h1 : 48 ≤ c.toNat) (h2 : c.toNat ≤ 57) :
    escapeChar c = [c] := by
  have hq : c ≠ '\"' := by rintro rfl; exact absurd h1 (by decide)
  have hs : c ≠ '\\' := by rintro rfl; exact absurd h2 (by decide)
  have hn : c ≠ '\n' := by rintro rfl; exact absurd h1 (by decide)
  have ht : c ≠ '\t' := by rintro rfl; exact absurd h1 (by decide)
  have hr : c ≠ '\r' := by rintro rfl; exact absurd h1 (by decide)
  have h8 : c ≠ Char.ofNat 8 := by rintro rfl; exact absurd h1 (by decide)
  have h12 : c ≠ Char.ofNat 12 := by rintro rfl; exact absurd h1 (by decide)
  have hlt : ¬ c.toNat < 32 := by omega
  simp [escapeChar, hq, hs, hn, ht, hr, h8, h12, hlt]

/-- JSON escaping is the identity on escape-free character sequences. -/
theorem jsonEscape_eq_self {l : List Char} (h : ∀ c ∈ l, escapeChar c = [c]) :
    jsonEscape l = l := by
  induction l with
  | nil => rfl
  | cons c cs ih =>
    simp only [jsonEscape, List.map_cons, List.flatten_cons]
    rw [h c (List.mem_cons_self _ _),
      show (cs.map escapeChar).flatten = jsonEscape cs from rfl,
      ih (fun c hc => h c (List.mem_cons_of_mem _ hc))]
    rfl

/-- A PR label `#n` appears verbatim inside its JSON string literal. -/
theorem label_within_quoteStr (n : Nat) :
    ('#' :: (Nat.repr n).data) <:+: quoteStr ("#" ++ Nat.repr n) := by
  have hdata : ("#" ++ Nat.repr n).data = '#' :: (Nat.repr n).data := rfl
  have hesc : jsonEscape (("#" ++ Nat.repr n).data) = ("#" ++ Nat.repr n).data := by
    apply jsonEscape_eq_self
    intro c hc
    rw [hdata] at hc
    rcases List.mem_cons.mp hc with rfl | hmem
    · decide
    · obtain ⟨ha, hb⟩ := repr_digits n c hmem
      exact escapeChar_eq_self_of_digit c ha hb
  rw [quoteStr, hesc, hdata]
  exact ⟨['\"'], ['\"'], by simp⟩

/-- The value of a string field contains its JSON string literal. -/
theorem quoteStr_within_strField (k v : String) : quoteStr v <:+: strField k v :=
  ⟨quoteStr k ++ [':', ' '], [], by simp [strField]⟩

/-- The label field sits inside a rendered PR reference. -/
theorem labelField_within_renderPR (d : Nat) (p : PRRef) :
    strField "label" p.label <:+: renderPR d p :=
  ⟨'{' :: '\n' :: pad (2 * (d + 1)),
    (',' :: '\n' :: pad (2 * (d + 1))) ++ strField "url" p.url ++
      ('\n' :: pad (2 * d) ++ ['}']),
    by simp [renderPR]⟩

/-- A rendered PR reference sits inside the rendered item sequence it
belongs to. -/
theorem renderPR_within_items (d : Nat) (p : PRRef) :
    ∀ ps : List PRRef, p ∈ ps → renderPR d p <:+: renderPRItems d ps := by
  intro ps
  induction ps with
  | nil => intro hp; cases hp
  | cons q rest ih =>
    intro hp
    rcases List.mem_cons.mp hp with rfl | hmem
    · cases rest with
      | nil => exact ⟨pad (2 * d), [], by simp [renderPRItems]⟩
      | cons r rs =>
        exact ⟨pad (2 * d), ',' :: '\n' :: renderPRItems d (r :: rs),
          by simp [renderPRItems]⟩
    · cases rest with
      | nil => cases hmem
      | cons r rs =>
        refine (ih hmem).trans ?_
        exact ⟨pad (2 * d) ++ renderPR d q ++ [',', '\n'], [],
          by simp [renderPRItems]⟩

/-- A rendered PR reference sits inside its rendered PR array. -/
theorem renderPR_within_renderPRs (d : Nat) (p : PRRef) (ps : List PRRef) (hp : p ∈ ps) :
    renderPR (d + 1) p <:+: renderPRs d ps := by
  cases ps with
  | nil => cases hp
  | cons q rest =>
    refine (renderPR_within_items (d + 1) p (q :: rest) hp).trans ?_
    exact ⟨['[', '\n'], '\n' :: pad (2 * d) ++ [']'], by simp [renderPRs]⟩

/-- The rendered PR array sits inside its rendered commit record. -/
theorem renderPRs_within_renderCommit (d : Nat) (c : CommitRecord) :
    renderPRs (d + 1) c.prs <:+: renderCommit d c :=
  ⟨commitFieldsFront d c, '\n' :: pad (2 * d) ++ ['}'], by simp [renderCommit]⟩

/-- A rendered commit record sits inside the rendered item sequence it
belongs to. -/
theorem renderCommit_within_items (d : Nat) (c : CommitRecord) :
    ∀ cs : List CommitRecord, c ∈ cs → renderCommit d c <:+: renderCommitItems d cs := by
  intro cs
  induction cs with
  | nil => intro hc; cases hc
  | cons q rest ih =>
    intro hc
    rcases List.mem_cons.mp hc with rfl | hmem
    · cases rest with
      | nil => exact ⟨pad (2 * d), [], by simp [renderCommitItems]⟩
      | cons r rs =>
        exact ⟨pad (2 * d), ',' :: '\n' :: renderCommitItems d (r :: rs),
          by simp [renderCommitItems]⟩
    · cases rest with
      | nil => cases hmem
      | cons r rs =>
        refine (ih hmem).trans ?_
        exact ⟨pad (2 * d) ++ renderCommit d q ++ [',', '\n'], [],
          by simp [renderCommitItems]⟩

/-- A rendered commit record sits inside the rendered commit array. -/
theorem renderCommit_within_renderCommits (d : Nat) (c : CommitRecord)
    (cs : List CommitRecord) (hc : c ∈ cs) :
    renderCommit (d + 1) c <:+: renderCommits d cs := by
  cases cs with
  | nil => cases hc
  | cons q rest =>
    refine (renderCommit_within_items (d + 1) c (q :: rest) hc).trans ?_
    exact ⟨['[', '\n'], '\n' :: pad (2 * d) ++ [']'], by simp [renderCommits]⟩

/-- Claim C3 counterexample: with `use-mention-commits-prs` falsy (so
`mentionCommitsAndPRs = false`) and a commit with one associated PR, the
rendered prompt text still contains the PR-reference marker `#1`,
contradicting the claim that the rendered text then contains no
PR-reference markers. -/
theorem prMarker_present_despite_flag_off :
    truthy (rawBase "use-mention-commits-prs") = false ∧
    ("#1".data <:+:
      (renderedPromptText (collectedContext envBase false "v1") (cfgOf rawBase)).data) := by
  refine ⟨by decide, ?_⟩
  have heq : ("#1".data : List Char) = '#' :: (Nat.repr 1).data := by decide
  have hrec : mkCommitRecord envBase.prsOfCommit commitA ∈
      envBase.prCommits.map (mkCommitRecord envBase.prsOfCommit) := by
    decide
  have hpr : ({ label := "#" ++ Nat.repr 1, url := "http://prs/1" } : PRRef) ∈
      (mkCommitRecord envBase.prsOfCommit commitA).prs := by
    decide
  have s1 : ('#' :: (Nat.repr 1).data) <:+: quoteStr ("#" ++ Nat.repr 1) :=
    label_within_quoteStr 1
  have s2 : quoteStr ("#" ++ Nat.repr 1) <:+: strField "label" ("#" ++ Nat.repr 1) :=
    quoteStr_within_strField "label" ("#" ++ Nat.repr 1)
  have s3 : strField "label" ("#" ++ Nat.repr 1) <:+:
      renderPR 3 ⟨"#" ++ Nat.repr 1, "http://prs/1"⟩ :=
    labelField_within_renderPR 3 ⟨"#" ++ Nat.repr 1, "http://prs/1"⟩
  have s4 : renderPR 3 ⟨"#" ++ Nat.repr 1, "http://prs/1"⟩ <:+:
      renderPRs 2 (mkCommitRecord envBase.prsOfCommit commitA).prs :=
    renderPR_within_renderPRs 2 _ _ hpr
  have s5 : renderPRs 2 (mkCommitRecord envBase.prsOfCommit commitA).prs <:+:
      renderCommit 1 (mkCommitRecord envBase.prsOfCommit commitA) :=
    renderPRs_within_renderCommit 1 (mkCommitRecord envBase.prsOfCommit commitA)
  have s6 : renderCommit 1 (mkCommitRecord envBase.prsOfCommit commitA) <:+:
      renderCommits 0 (envBase.prCommits.map (mkCommitRecord envBase.prsOfCommit)) :=
    renderCommit_within_renderCommits 0 _ _ hrec
  have hdata : (renderedPromptText (collectedContext envBase false "v1")
      (cfgOf rawBase)).data =
      (buildSystemPrompt (cfgOf rawBase).mentionCommitsAndPRs
        (cfgOf rawBase).targetLanguage).data ++
      (contextCommitsHeader.data ++
        renderCommits 0 (envBase.prCommits.map (mkCommitRecord envBase.prsOfCommit))) := rfl
  rw [heq, hdata]
  exact within_append_left _ (within_append_left _
    (s1.trans (s2.trans (s3.trans (s4.trans (s5.trans s6))))))

/-- Claim C3 (corrected): the mention flag does not filter the embedded
context — on the commit path, for every commit and every PR associated with
it, the reference label `#n` occurs verbatim in the rendered prompt
text for every prompt configuration (with `mentionCommitsAndPRs` true or
false); the flag only switches the instruction line between permitting and
forbidding mentions. -/
theorem prLabels_always_in_rendered_text (env : Env) (version : String) (cfg : PromptConfig)
    (c : CommitObj) (hc : c ∈ env.prCommits) (p : PRData) (hp : p ∈ env.prsOfCommit c.sha) :
    ('#' :: (Nat.repr p.number).data) <:+:
      (renderedPromptText (collectedContext env false version) cfg).data := by
  have hrec : mkCommitRecord env.prsOfCommit c ∈
      env.prCommits.map (mkCommitRecord env.prsOfCommit) :=
    List.mem_map_of_mem _ hc
  have hpr : ({ label := "#" ++ Nat.repr p.number, url := p.html_url } : PRRef) ∈
      (mkCommitRecord env.prsOfCommit c).prs := by
    show _ ∈ (env.prsOfCommit c.sha).map
      (fun q => ({ label := "#" ++ Nat.repr q.number, url := q.html_url } : PRRef))
    exact List.mem_map_of_mem _ hp
  have s1 : ('#' :: (Nat.repr p.number).data) <:+: quoteStr ("#" ++ Nat.repr p.number) :=
    label_within_quoteStr p.number
  have s2 : quoteStr ("#" ++ Nat.repr p.number) <:+:
      strField "label" ("#" ++ Nat.repr p.number) :=
    quoteStr_within_strField "label" ("#" ++ Nat.repr p.number)
  have s3 : strField "label" ("#" ++ Nat.repr p.number) <:+:
      renderPR 3 ⟨"#" ++ Nat.repr p.number, p.html_url⟩ :=
    labelField_within_renderPR 3 ⟨"#" ++ Nat.repr p.number, p.html_url⟩
  have s4 : renderPR 3 ⟨"#" ++ Nat.repr p.number, p.html_url⟩ <:+:
      renderPRs 2 (mkCommitRecord env.prsOfCommit c).prs :=
    renderPR_within_renderPRs 2 _ _ hpr
  have s5 : renderPRs 2 (mkCommitRecord env.prsOfCommit c).prs <:+:
      renderCommit 1 (mkCommitRecord env.prsOfCommit c) :=
    renderPRs_within_renderCommit 1 (mkCommitRecord env.prsOfCommit c)
  have s6 : renderCommit 1 (mkCommitRecord env.prsOfCommit c) <:+:
      renderCommits 0 (env.prCommits.map (mkCommitRecord env.prsOfCommit)) :=
    renderCommit_within_renderCommits 0 _ _ hrec
  have hdata : (renderedPromptText (collectedContext env false version) cfg).data =
      (buildSystemPrompt cfg.mentionCommitsAndPRs cfg.targetLanguage).data ++
      (contextCommitsHeader.data ++
        renderCommits 0 (env.prCommits.map (mkCommitRecord env.prsOfCommit))) := rfl
  rw [hdata]
  exact within_append_left _ (within_append_left _
    (s1.trans (s2.trans (s3.trans (s4.trans (s5.trans s6))))))

/-- Claim C3 witness at a concrete environment whose single commit has one
associated PR, under both flag values. -/
theorem prLabels_always_in_rendered_text_witness :
    commitA ∈ envBase.prCommits ∧
    (⟨1, "http://prs/1"⟩ : PRData) ∈ envBase.prsOfCommit commitA.sha ∧
    (('#' :: (Nat.repr 1).data) <:+:
      (renderedPromptText (collectedContext envBase false "v1")
        (PromptConfig.mk "en" false)).data) ∧
    (('#' :: (Nat.repr 1).data) <:+:
      (renderedPromptText (collectedContext envBase false "v1")
        (PromptConfig.mk "en" true)).data) :=
  ⟨by decide, by decide,
    prLabels_always_in_rendered_text envBase "v1" (PromptConfig.mk "en" false) commitA
      (by decide) ⟨1, "http://prs/1"⟩ (by decide),
    prLabels_always_in_rendered_text envBase "v1" (PromptConfig.mk "en" true) commitA
      (by decide) ⟨1, "http://prs/1"⟩ (by decide)⟩

end ReleaseNotesAction
